import Mathlib

/-!
Verification of the `spec-pattern-ts` v3 specification algebra
(`src/specification-v3.ts`), with the v1 `Spec` class constructor
(`src/specification.ts`) embedded where a claim refers to it.

Modelling choices:
* A JS context object is an association list `Ctx V := List (String × V)`;
  `key in candidate` is a successful lookup and `candidate[key]` is the
  looked-up value (object keys are unique, lookup takes the first binding).
* A value passed in predicate position is `JsPred α`: either a callable
  carrying a label (used only to record which predicates were invoked)
  whose body may throw (`Except String Bool`, errors being JS exceptions),
  or a non-callable value (calling it throws a `TypeError`).
* `run` is the evaluator for `isSatisfiedBy`, translated node by node from
  the TypeScript.  It threads the context through every call (a JS method
  receives the object by reference and could in principle mutate it) and
  also returns the ordered list of labels of the leaf predicates invoked,
  so that claims about evaluation order, short-circuiting and mutation are
  expressible.
-/

/-- A JS value sitting in predicate position: a callable function (with a
label identifying it in evaluation traces) whose body may throw, or a
non-callable value. -/
inductive JsPred (α : Type) where
  | fn (label : String) (f : α → Except String Bool)
  | nonCallable

/-- A candidate context object: a record of named fields. -/
abbrev Ctx (V : Type) := List (String × V)

/-- JS property lookup `candidate[k]` (with `k in candidate` being
success): the first binding for the key, if any. -/
def lookupCtx {V : Type} : Ctx V → String → Option V
  | [], _ => none
  | (k', v) :: rest, k => if k' = k then some v else lookupCtx rest k

/-- Calling a predicate-position value on an argument: a function runs
(recording its label in the trace), a non-callable throws a `TypeError`
without any predicate running. -/
def applyPred {α : Type} : JsPred α → α → Except String Bool × List String
  | .fn lbl f, a => (f a, [lbl])
  | .nonCallable, _ => (.error "TypeError: predicate is not a function", [])

/-- The v3 specification tree (`specification-v3.ts`): the concrete
classes `SingleKeySpecification`, `PredicateSpecification`,
`AndSpecification`, `OrSpecification`, `NotSpecification`.  The
`and`/`or`/`not` methods of `BaseSpecification` allocate exactly these
nodes around the existing operands. -/
inductive Specification (V : Type) where
  | singleKey (key : String) (predicate : JsPred V)
  | predicate (predicate : JsPred (Ctx V))
  | and (left right : Specification V)
  | or (left right : Specification V)
  | not (spec : Specification V)

variable {V : Type}

/-- Outcome of trying the right operand of `OrSpecification.isSatisfiedBy`
after the left operand did not decide the result: `if (right) return true`
inside a `try { } catch {}`, then `return false`. -/
def orRight (lt : List String) : (Except String Bool × List String) × Ctx V →
    (Except String Bool × List String) × Ctx V
  | ((.ok true, rt), c) => ((.ok true, lt ++ rt), c)
  | ((.ok false, rt), c) => ((.ok false, lt ++ rt), c)
  | ((.error _, rt), c) => ((.ok false, lt ++ rt), c)

/-- `isSatisfiedBy`, translated node by node from `specification-v3.ts`:
* `SingleKeySpecification`: `this.key in candidate && this.predicate(candidate[this.key])`;
* `PredicateSpecification`: `this.predicate(candidate)`;
* `AndSpecification`: binds `leftResult` then `rightResult` (both operands
  are evaluated before `leftResult && rightResult`; an exception from
  either evaluation aborts the method);
* `OrSpecification`: `try { if (left) return true } catch {}` then
  `try { if (right) return true } catch {}` then `return false`;
* `NotSpecification`: `!this.spec.isSatisfiedBy(candidate)`.
The context is threaded through the recursive calls and returned, and the
labels of the invoked leaf predicates are collected in call order. -/
def run : Specification V → Ctx V → (Except String Bool × List String) × Ctx V
  | .singleKey k p, c =>
    match lookupCtx c k with
    | none => ((.ok false, []), c)
    | some v => (applyPred p v, c)
  | .predicate p, c => (applyPred p c, c)
  | .and l r, c =>
    match run l c with
    | ((.error e, lt), c1) => ((.error e, lt), c1)
    | ((.ok a, lt), c1) =>
      match run r c1 with
      | ((.error e, rt), c2) => ((.error e, lt ++ rt), c2)
      | ((.ok b, rt), c2) => ((.ok (a && b), lt ++ rt), c2)
  | .or l r, c =>
    match run l c with
    | ((.ok true, lt), c1) => ((.ok true, lt), c1)
    | ((.ok false, lt), c1) => orRight lt (run r c1)
    | ((.error _, lt), c1) => orRight lt (run r c1)
  | .not s, c =>
    match run s c with
    | ((.ok b, t), c1) => ((.ok (!b), t), c1)
    | ((.error e, t), c1) => ((.error e, t), c1)

/-- Result and invocation trace of an evaluation. -/
def evalPair (s : Specification V) (c : Ctx V) : Except String Bool × List String :=
  (run s c).1

/-- The boolean outcome of `isSatisfiedBy` (or the exception it throws). -/
def Specification.isSatisfiedBy (s : Specification V) (c : Ctx V) : Except String Bool :=
  (evalPair s c).1

/-- The labels of the leaf predicates invoked during evaluation, in call
order. -/
def traceOf (s : Specification V) (c : Ctx V) : List String :=
  (evalPair s c).2

/-- The v3 factory `Spec(key, predicate)`: constructs a
`SingleKeySpecification`.  The constructor only stores its arguments, so
construction can never throw; the result is nevertheless typed as a JS
constructor call (`Except`) so that the absence of a construction-time
check is a statement, not a typing accident. -/
def Spec (key : String) (predicate : JsPred V) : Except String (Specification V) :=
  .ok (.singleKey key predicate)

/-- The v3 factory `CompositeSpec(predicate)`: constructs a
`PredicateSpecification`.  Like `Spec`, the constructor performs no
validation and cannot throw. -/
def CompositeSpec (predicate : JsPred (Ctx V)) : Except String (Specification V) :=
  .ok (.predicate predicate)

/-- JS `Array.prototype.reduce` without an initial value: throws on an
empty array, otherwise left-folds starting from the first element. -/
def reduceJS {α : Type} (f : α → α → α) : List α → Except String α
  | [] => .error "Reduce of empty array with no initial value"
  | x :: xs => .ok (xs.foldl f x)

/-- `allOf(...specs)`: `specs.reduce((acc, spec) => acc.and(spec))`. -/
def allOf (specs : List (Specification V)) : Except String (Specification V) :=
  reduceJS Specification.and specs

/-- `anyOf(...specs)`: `specs.reduce((acc, spec) => acc.or(spec))`. -/
def anyOf (specs : List (Specification V)) : Except String (Specification V) :=
  reduceJS Specification.or specs

/-- The v1 `Spec` class of `src/specification.ts`: stores a validated
expression. -/
structure V1Spec (α : Type) where
  expression : α → Except String Bool

/-- The v1 `Spec` constructor: `if (typeof expression !== 'function') throw
new Error('Expression must be a function')`, then store the expression. -/
def V1Spec.create {α : Type} : JsPred α → Except String (V1Spec α)
  | .fn _ f => .ok ⟨f⟩
  | .nonCallable => .error "Expression must be a function"

/-- `isSatisfiedBy` of the v1 `Spec` class: `this.#expression(candidate)`. -/
def V1Spec.isSatisfiedBy {α : Type} (s : V1Spec α) (candidate : α) : Except String Bool :=
  s.expression candidate

/-- Pure combination of left and right evaluations at an `And` node: both
operands are evaluated; an exception from either propagates, otherwise the
result is the conjunction. -/
def andComb : Except String Bool × List String → Except String Bool × List String →
    Except String Bool × List String
  | (.error e, lt), _ => (.error e, lt)
  | (.ok _, lt), (.error e, rt) => (.error e, lt ++ rt)
  | (.ok a, lt), (.ok b, rt) => (.ok (a && b), lt ++ rt)

/-- Pure combination of left and right evaluations at an `Or` node: a left
`true` decides the result without the right operand; otherwise the right
operand decides, with exceptions in either branch treated as `false`. -/
def orComb : Except String Bool × List String → Except String Bool × List String →
    Except String Bool × List String
  | (.ok true, lt), _ => (.ok true, lt)
  | (.ok false, lt), (.ok true, rt) => (.ok true, lt ++ rt)
  | (.ok false, lt), (.ok false, rt) => (.ok false, lt ++ rt)
  | (.ok false, lt), (.error _, rt) => (.ok false, lt ++ rt)
  | (.error _, lt), (.ok true, rt) => (.ok true, lt ++ rt)
  | (.error _, lt), (.ok false, rt) => (.ok false, lt ++ rt)
  | (.error _, lt), (.error _, rt) => (.ok false, lt ++ rt)

/-- Pure combination at a `Not` node: negate a normal result, propagate an
exception. -/
def notComb : Except String Bool × List String → Except String Bool × List String
  | (.ok b, t) => (.ok (!b), t)
  | (.error e, t) => (.error e, t)

/-- Evaluation never mutates the candidate context: the context coming out
of `run` is the one that went in. -/
theorem run_preserves_ctx (s : Specification V) : ∀ c : Ctx V, (run s c).2 = c := by
  induction s with
  | singleKey k p =>
      intro c
      simp only [run]
      split <;> rfl
  | predicate p => intro c; rfl
  | and l r ihl ihr =>
      intro c
      simp only [run]
      rcases hl : run l c with ⟨⟨lres, lt⟩, c1⟩
      have hc1 : c1 = c := by have := ihl c; rw [hl] at this; exact this
      rcases lres with e | a
      · simpa using hc1
      · rcases hr : run r c1 with ⟨⟨rres, rt⟩, c2⟩
        have hc2 : c2 = c1 := by have := ihr c1; rw [hr] at this; exact this
        rcases rres with e | b <;>
          · simp only [hr]
            simpa using hc2.trans hc1
  | or l r ihl ihr =>
      intro c
      simp only [run]
      rcases hl : run l c with ⟨⟨lres, lt⟩, c1⟩
      have hc1 : c1 = c := by have := ihl c; rw [hl] at this; exact this
      have hright : ∀ lt2 : List String, (orRight lt2 (run r c1)).2 = c := by
        intro lt2
        rcases hr : run r c1 with ⟨⟨rres, rt⟩, c2⟩
        have hc2 : c2 = c1 := by have := ihr c1; rw [hr] at this; exact this
        rcases rres with e | b
        · simpa [orRight] using hc2.trans hc1
        · rcases b <;> simpa [orRight] using hc2.trans hc1
      rcases lres with e | a
      · simpa using hright lt
      · rcases a
        · simpa using hright lt
        · simpa using hc1
  | not s ih =>
      intro c
      simp only [run]
      rcases hs : run s c with ⟨⟨res, t⟩, c1⟩
      have hc1 : c1 = c := by have := ih c; rw [hs] at this; exact this
      rcases res with e | b <;> simpa using hc1

/-- `run` splits into the pure evaluation pair and the unchanged context. -/
theorem run_eq_evalPair (s : Specification V) (c : Ctx V) :
    run s c = (evalPair s c, c) := by
  have h2 := run_preserves_ctx s c
  rcases hr : run s c with ⟨p, c1⟩
  rw [hr] at h2
  simp only at h2
  rw [show evalPair s c = p by rw [evalPair, hr]]
  rw [h2]

/-- Evaluation of an `And` node is the `andComb` combination of the
operand evaluations. -/
theorem evalPair_and (l r : Specification V) (c : Ctx V) :
    evalPair (Specification.and l r) c = andComb (evalPair l c) (evalPair r c) := by
  rcases hl : evalPair l c with ⟨lres, lt⟩
  rcases hr : evalPair r c with ⟨rres, rt⟩
  have Hl : run l c = ((lres, lt), c) := by rw [run_eq_evalPair, hl]
  have Hr : run r c = ((rres, rt), c) := by rw [run_eq_evalPair, hr]
  rw [evalPair]
  simp only [run, Hl]
  rcases lres with e | a
  · rfl
  · simp only [Hr]
    rcases rres with e | b <;> rfl

/-- Evaluation of an `Or` node is the `orComb` combination of the operand
evaluations. -/
theorem evalPair_or (l r : Specification V) (c : Ctx V) :
    evalPair (Specification.or l r) c = orComb (evalPair l c) (evalPair r c) := by
  rcases hl : evalPair l c with ⟨lres, lt⟩
  rcases hr : evalPair r c with ⟨rres, rt⟩
  have Hl : run l c = ((lres, lt), c) := by rw [run_eq_evalPair, hl]
  have Hr : run r c = ((rres, rt), c) := by rw [run_eq_evalPair, hr]
  rw [evalPair]
  simp only [run, Hl]
  rcases lres with e | a
  · simp only [Hr]
    rcases rres with e | b
    · rfl
    · rcases b <;> rfl
  · rcases a
    · simp only [Hr]
      rcases rres with e | b
      · rfl
      · rcases b <;> rfl
    · rfl

/-- Evaluation of a `Not` node is the negation of the operand evaluation. -/
theorem evalPair_not (s : Specification V) (c : Ctx V) :
    evalPair (Specification.not s) c = notComb (evalPair s c) := by
  rcases hs : evalPair s c with ⟨res, t⟩
  have Hs : run s c = ((res, t), c) := by rw [run_eq_evalPair, hs]
  rw [evalPair]
  simp only [run, Hs]
  rcases res with e | b <;> rfl

/-- Evaluation of a single-key leaf: if the key is absent the result is
`false` with no predicate invoked; if present, the stored predicate is
applied to the looked-up value. -/
theorem evalPair_singleKey (k : String) (p : JsPred V) (c : Ctx V) :
    evalPair (Specification.singleKey k p) c =
      (match lookupCtx c k with
       | none => ((.ok false : Except String Bool), ([] : List String))
       | some v => applyPred p v) := by
  rw [evalPair]
  simp only [run]
  split <;> rfl

/-- Totality of a predicate-position value: it is callable and never
throws ("pure total predicate"). -/
def PredTotal {α : Type} : JsPred α → Prop
  | .fn _ f => ∀ a, ∃ b, f a = .ok b
  | .nonCallable => False

/-- A specification tree all of whose leaf predicates are callable and
never throw ("pure total predicate tree"). -/
def NoThrow : Specification V → Prop
  | .singleKey _ p => PredTotal p
  | .predicate p => PredTotal p
  | .and l r => NoThrow l ∧ NoThrow r
  | .or l r => NoThrow l ∧ NoThrow r
  | .not s => NoThrow s

/-- An `Or` node always returns a normal boolean, whatever its operands
do: both branches sit inside `try { } catch {}` and the fall-through
returns `false`. -/
theorem or_always_ok (l r : Specification V) (c : Ctx V) :
    ∃ b t, evalPair (Specification.or l r) c = (.ok b, t) := by
  rw [evalPair_or]
  rcases evalPair l c with ⟨lres, lt⟩
  rcases evalPair r c with ⟨rres, rt⟩
  rcases lres with e | a
  · rcases rres with e2 | b
    · exact ⟨false, lt ++ rt, rfl⟩
    · rcases b
      · exact ⟨false, lt ++ rt, rfl⟩
      · exact ⟨true, lt ++ rt, rfl⟩
  · rcases a
    · rcases rres with e2 | b
      · exact ⟨false, lt ++ rt, rfl⟩
      · rcases b
        · exact ⟨false, lt ++ rt, rfl⟩
        · exact ⟨true, lt ++ rt, rfl⟩
    · exact ⟨true, lt, rfl⟩

/-- Evaluation of a no-throw tree always returns a normal boolean. -/
theorem noThrow_ok (s : Specification V) :
    NoThrow s → ∀ c : Ctx V, ∃ b t, evalPair s c = (.ok b, t) := by
  induction s with
  | singleKey k p =>
      intro h c
      rw [evalPair_singleKey]
      rcases hk : lookupCtx c k with _ | v
      · exact ⟨false, [], rfl⟩
      · rcases p with ⟨lbl, f⟩ | _
        · obtain ⟨b, hb⟩ := h v
          exact ⟨b, [lbl], by simp only [applyPred, hb]⟩
        · exact (h : False).elim
  | predicate p =>
      intro h c
      show ∃ b t, applyPred p c = (.ok b, t)
      rcases p with ⟨lbl, f⟩ | _
      · obtain ⟨b, hb⟩ := h c
        exact ⟨b, [lbl], by simp only [applyPred, hb]⟩
      · exact (h : False).elim
  | and l r ihl ihr =>
      intro h c
      obtain ⟨hl, hr⟩ := h
      obtain ⟨a, t1, ha⟩ := ihl hl c
      obtain ⟨b, t2, hb⟩ := ihr hr c
      rw [evalPair_and, ha, hb]
      exact ⟨a && b, t1 ++ t2, rfl⟩
  | or l r ihl ihr =>
      intro _ c
      exact or_always_ok l r c
  | not s ih =>
      intro h c
      obtain ⟨b, t, hb⟩ := ih h c
      rw [evalPair_not, hb]
      exact ⟨!b, t, rfl⟩

/-- A leaf specification on key `"x"` whose predicate always returns
`false` (labelled `"p"`). -/
def leafFalse : Specification Nat :=
  .singleKey "x" (.fn "p" (fun _ => .ok false))

/-- A composite-predicate leaf whose predicate always throws `"boom"`
(labelled `"q"`). -/
def leafThrow : Specification Nat :=
  .predicate (.fn "q" (fun _ => .error "boom"))

/-- A concrete context containing the key `"x"`. -/
def ctxX : Ctx Nat := [("x", 0)]

/-- C1: the claim says `And(L, R)` short-circuits — with `L` false, `R`'s
predicate is never invoked and a throwing `R` cannot prevent the `false`
result.  The code refutes this at a concrete input: `AndSpecification`
binds both operand results before combining them, so with `L` false the
evaluation still invokes `R`'s predicate (label `"q"` appears in the
trace) and propagates its exception instead of returning `false`. -/
theorem C1_and_evaluates_right_at_failing_input :
    leafFalse.isSatisfiedBy ctxX = .ok false ∧
    evalPair (Specification.and leafFalse leafThrow) ctxX = (.error "boom", ["p", "q"]) :=
  ⟨rfl, rfl⟩

/-- C2: the claim says leaf-predicate exceptions are never caught by any
combinator.  The code refutes this at a concrete input: `OrSpecification`
wraps each branch in `try { } catch {}`, so an exception thrown in a
branch of `Or` is swallowed and the evaluation returns a normal boolean;
`And` and `Not` do propagate the exception as claimed. -/
theorem C2_or_catches_exception_at_failing_input :
    evalPair (Specification.or leafThrow leafFalse) ctxX = (.ok false, ["q", "p"]) ∧
    evalPair (Specification.and leafThrow leafFalse) ctxX = (.error "boom", ["q"]) ∧
    evalPair (Specification.not leafThrow) ctxX = (.error "boom", ["q"]) :=
  ⟨rfl, rfl, rfl⟩

/-- C3: an atomic field specification returns `true` iff the context
contains the key and the predicate holds on the stored value; when the
key is absent it returns `false` without throwing and without invoking
the predicate (empty invocation trace). -/
theorem C3_singleKey_key_absence_leniency {V : Type} (k lbl : String)
    (f : V → Except String Bool) (c : Ctx V) :
    (lookupCtx c k = none →
        evalPair (Specification.singleKey k (.fn lbl f)) c = (.ok false, [])) ∧
    (∀ v, lookupCtx c k = some v →
        evalPair (Specification.singleKey k (.fn lbl f)) c = (f v, [lbl])) ∧
    ((Specification.singleKey k (.fn lbl f)).isSatisfiedBy c = .ok true ↔
        ∃ v, lookupCtx c k = some v ∧ f v = .ok true) := by
  refine ⟨?_, ?_, ?_⟩
  · intro h
    rw [evalPair_singleKey, h]
  · intro v h
    rw [evalPair_singleKey, h]
    rfl
  · rw [Specification.isSatisfiedBy, evalPair_singleKey]
    rcases hk : lookupCtx c k with _ | v
    · simp
    · simp [applyPred]

/-- Witness for C3 at concrete inputs: key `"x"` absent gives `false`
with no predicate invoked; key `"x"` present applies the predicate. -/
theorem C3_witness :
    evalPair (Specification.singleKey "x" (.fn "p" (fun n : Nat => .ok (n != 0)))) [("y", 5)] =
      (.ok false, []) ∧
    evalPair (Specification.singleKey "x" (.fn "p" (fun n : Nat => .ok (n != 0)))) [("x", 3)] =
      (.ok true, ["p"]) :=
  ⟨(C3_singleKey_key_absence_leniency "x" "p" (fun n : Nat => .ok (n != 0)) [("y", 5)]).1 rfl,
   (C3_singleKey_key_absence_leniency "x" "p" (fun n : Nat => .ok (n != 0)) [("x", 3)]).2.1 3 rfl⟩

/-- C4: `Or(L, R)` evaluates `L` first; a `true` left result decides the
evaluation without invoking any predicate of `R` (the trace is exactly the
left trace), and otherwise the result is `R`'s (normally returned)
result. -/
theorem C4_or_short_circuit {V : Type} (l r : Specification V) (c : Ctx V)
    (tl tr : List String) (b : Bool) :
    (evalPair l c = (.ok true, tl) → evalPair (Specification.or l r) c = (.ok true, tl)) ∧
    (evalPair l c = (.ok false, tl) → evalPair r c = (.ok b, tr) →
        evalPair (Specification.or l r) c = (.ok b, tl ++ tr)) := by
  constructor
  · intro h
    rw [evalPair_or, h]
    rcases hr : evalPair r c with ⟨rres, rt⟩
    rcases rres with e | b2
    · rfl
    · rcases b2 <;> rfl
  · intro h1 h2
    rw [evalPair_or, h1, h2]
    rcases b <;> rfl

/-- Witness for C4 at concrete inputs: a true left branch short-circuits
(right predicate not in the trace); a false left branch hands over to the
right result. -/
theorem C4_witness :
    evalPair (Specification.or (Specification.predicate (.fn "a" (fun _ : Ctx Nat => .ok true)))
        (Specification.predicate (.fn "b" (fun _ : Ctx Nat => .ok false)))) [] =
      (.ok true, ["a"]) ∧
    evalPair (Specification.or (Specification.predicate (.fn "c" (fun _ : Ctx Nat => .ok false)))
        (Specification.predicate (.fn "d" (fun _ : Ctx Nat => .ok true)))) [] =
      (.ok true, ["c", "d"]) :=
  ⟨(C4_or_short_circuit (Specification.predicate (.fn "a" (fun _ : Ctx Nat => .ok true)))
      (Specification.predicate (.fn "b" (fun _ : Ctx Nat => .ok false))) [] ["a"] [] true).1 rfl,
   (C4_or_short_circuit (Specification.predicate (.fn "c" (fun _ : Ctx Nat => .ok false)))
      (Specification.predicate (.fn "d" (fun _ : Ctx Nat => .ok true))) [] ["c"] ["d"] true).2 rfl rfl⟩

/-- C5 counterexample: the claim says a non-callable predicate makes the
v3 leaf constructors (`Spec`, `CompositeSpec`) raise at construction
time.  The code refutes this: both constructions succeed, and the error
(a `TypeError`) only arises later, when evaluation applies the stored
non-callable. -/
theorem C5_counterexample :
    Spec "x" (JsPred.nonCallable : JsPred Nat) = .ok (.singleKey "x" .nonCallable) ∧
    CompositeSpec (JsPred.nonCallable : JsPred (Ctx Nat)) = .ok (.predicate .nonCallable) ∧
    evalPair (Specification.singleKey "x" (JsPred.nonCallable : JsPred Nat)) ctxX =
      (.error "TypeError: predicate is not a function", []) :=
  ⟨rfl, rfl, rfl⟩

/-- C5 amended: the v3 leaf constructors perform no validation and always
succeed, a non-callable predicate first surfacing as a `TypeError` when
evaluation applies it; the construction-time check exists only in the v1
`Spec` class, whose constructor accepts a function and throws
`"Expression must be a function"` for a non-callable. -/
theorem C5_amended_construction_validation {V α : Type} (k lbl : String) (p : JsPred V)
    (q : JsPred (Ctx V)) (f : α → Except String Bool) :
    (∃ s, Spec k p = .ok s) ∧
    (∃ s, CompositeSpec q = .ok s) ∧
    V1Spec.create (.fn lbl f) = .ok ⟨f⟩ ∧
    V1Spec.create (JsPred.nonCallable : JsPred α) = .error "Expression must be a function" ∧
    (∀ (c : Ctx V) (v : V), lookupCtx c k = some v →
        evalPair (Specification.singleKey k (JsPred.nonCallable : JsPred V)) c =
          (.error "TypeError: predicate is not a function", [])) := by
  refine ⟨⟨_, rfl⟩, ⟨_, rfl⟩, rfl, rfl, ?_⟩
  intro c v h
  rw [evalPair_singleKey, h]
  rfl

/-- Witness for C5 amended at concrete inputs: the v1 constructor rejects
a non-callable, and a v3 spec holding a non-callable fails only when
evaluated on a context containing its key. -/
theorem C5_witness :
    V1Spec.create (JsPred.nonCallable : JsPred Nat) = .error "Expression must be a function" ∧
    evalPair (Specification.singleKey "x" (JsPred.nonCallable : JsPred Nat)) [("x", 7)] =
      (.error "TypeError: predicate is not a function", []) :=
  ⟨(C5_amended_construction_validation "x" "lbl" (JsPred.nonCallable : JsPred Nat)
      (JsPred.nonCallable : JsPred (Ctx Nat)) (fun _ : Nat => .ok true)).2.2.2.1,
   (C5_amended_construction_validation "x" "lbl" (JsPred.nonCallable : JsPred Nat)
      (JsPred.nonCallable : JsPred (Ctx Nat)) (fun _ : Nat => .ok true)).2.2.2.2 [("x", 7)] 7 rfl⟩

/-- C6: double negation is semantically collapsed — `S.not().not()`
evaluates exactly as `S` (same result, same exception, same invocation
trace) — even though `not()` allocates a fresh `Not` node rather than
structurally cancelling (the doubly negated tree is a different tree). -/
theorem C6_double_negation {V : Type} (s : Specification V) (c : Ctx V) :
    evalPair (Specification.not (Specification.not s)) c = evalPair s c ∧
    Specification.not (Specification.not s) ≠ s := by
  constructor
  · rw [evalPair_not, evalPair_not]
    rcases hp : evalPair s c with ⟨res, t⟩
    rcases res with e | b
    · rfl
    · simp [notComb]
  · intro h
    have hs := congrArg (fun x => sizeOf x) h
    simp only [Specification.not.sizeOf_spec] at hs
    omega

/-- C7: De Morgan equivalence — for pure total predicate trees,
`S1.and(S2).not()` and `S1.not().or(S2.not())` evaluate to the same
boolean on every context. -/
theorem C7_de_morgan {V : Type} (s1 s2 : Specification V) (c : Ctx V)
    (h1 : NoThrow s1) (h2 : NoThrow s2) :
    (Specification.not (Specification.and s1 s2)).isSatisfiedBy c =
      (Specification.or (Specification.not s1) (Specification.not s2)).isSatisfiedBy c := by
  obtain ⟨a, t1, ha⟩ := noThrow_ok s1 h1 c
  obtain ⟨b, t2, hb⟩ := noThrow_ok s2 h2 c
  rw [Specification.isSatisfiedBy, Specification.isSatisfiedBy, evalPair_not, evalPair_and,
    evalPair_or, evalPair_not, evalPair_not, ha, hb]
  rcases a <;> rcases b <;> rfl

/-- Witness for C7 at concrete no-throw specifications: an always-true
and an always-false composite leaf. -/
theorem C7_witness :
    (Specification.not (Specification.and (Specification.predicate (.fn "a" (fun _ : Ctx Nat => .ok true)))
        (Specification.predicate (.fn "b" (fun _ : Ctx Nat => .ok false))))).isSatisfiedBy [] =
      (Specification.or
        (Specification.not (Specification.predicate (.fn "a" (fun _ : Ctx Nat => .ok true))))
        (Specification.not (Specification.predicate (.fn "b" (fun _ : Ctx Nat => .ok false))))).isSatisfiedBy [] :=
  C7_de_morgan (Specification.predicate (.fn "a" (fun _ : Ctx Nat => .ok true)))
    (Specification.predicate (.fn "b" (fun _ : Ctx Nat => .ok false))) []
    (fun _ => ⟨true, rfl⟩) (fun _ => ⟨false, rfl⟩)

/-- C8: `allOf`/`anyOf` left-fold their argument list with `and`/`or`:
on three specifications they build exactly `A.and(B).and(C)` resp.
`A.or(B).or(C)` (hence evaluate identically), and on an empty argument
list the underlying `reduce` throws instead of returning a
specification. -/
theorem C8_allOf_anyOf_fold {V : Type} (sA sB sC : Specification V) (c : Ctx V) :
    allOf [sA, sB, sC] = .ok (Specification.and (Specification.and sA sB) sC) ∧
    anyOf [sA, sB, sC] = .ok (Specification.or (Specification.or sA sB) sC) ∧
    (allOf [sA, sB, sC]).map (fun s => s.isSatisfiedBy c) =
      .ok ((Specification.and (Specification.and sA sB) sC).isSatisfiedBy c) ∧
    (anyOf [sA, sB, sC]).map (fun s => s.isSatisfiedBy c) =
      .ok ((Specification.or (Specification.or sA sB) sC).isSatisfiedBy c) ∧
    allOf ([] : List (Specification V)) = .error "Reduce of empty array with no initial value" ∧
    anyOf ([] : List (Specification V)) = .error "Reduce of empty array with no initial value" :=
  ⟨rfl, rfl, rfl, rfl, rfl, rfl⟩

/-- C9: evaluation is deterministic and effect-free on its inputs — the
context coming out of an evaluation is the context that went in, and
re-running the same specification on that context reproduces the same
outcome (result, trace and context). -/
theorem C9_referential_transparency {V : Type} (s : Specification V) (c : Ctx V) :
    (run s c).2 = c ∧ run s ((run s c).2) = run s c := by
  have h := run_preserves_ctx s c
  exact ⟨h, by rw [h]⟩

/-- C10: a throwing branch of `Or` is treated as not satisfied — if the
left evaluation throws, the right operand is still evaluated and decides
the result, and if both branches throw, `Or` returns `false` instead of
propagating either exception. -/
theorem C10_or_error_leniency {V : Type} (l r : Specification V) (c : Ctx V)
    (tl tr : List String) (e1 e2 : String) (b : Bool) :
    (evalPair l c = (.error e1, tl) → evalPair r c = (.ok b, tr) →
        evalPair (Specification.or l r) c = (.ok b, tl ++ tr)) ∧
    (evalPair l c = (.error e1, tl) → evalPair r c = (.error e2, tr) →
        evalPair (Specification.or l r) c = (.ok false, tl ++ tr)) := by
  constructor
  · intro h1 h2
    rw [evalPair_or, h1, h2]
    rcases b <;> rfl
  · intro h1 h2
    rw [evalPair_or, h1, h2]
    rfl

/-- Witness for C10 at concrete inputs: a throwing left branch defers to
the right branch, and two throwing branches give `false`. -/
theorem C10_witness :
    evalPair (Specification.or (Specification.predicate (.fn "t1" (fun _ : Ctx Nat => .error "e1")))
        (Specification.predicate (.fn "t2" (fun _ : Ctx Nat => .ok true)))) [] =
      (.ok true, ["t1", "t2"]) ∧
    evalPair (Specification.or (Specification.predicate (.fn "t1" (fun _ : Ctx Nat => .error "e1")))
        (Specification.predicate (.fn "t3" (fun _ : Ctx Nat => .error "e2")))) [] =
      (.ok false, ["t1", "t3"]) :=
  ⟨(C10_or_error_leniency (Specification.predicate (.fn "t1" (fun _ : Ctx Nat => .error "e1")))
      (Specification.predicate (.fn "t2" (fun _ : Ctx Nat => .ok true))) [] ["t1"] ["t2"] "e1" "e2" true).1 rfl rfl,
   (C10_or_error_leniency (Specification.predicate (.fn "t1" (fun _ : Ctx Nat => .error "e1")))
      (Specification.predicate (.fn "t3" (fun _ : Ctx Nat => .error "e2"))) [] ["t1"] ["t3"] "e1" "e2" true).2 rfl rfl⟩
